import Mathlib

/-! Verification of the combination-shape-keys driver engine
(`src/__init__.py` of the bl_corrective_shape_key add-on).

The Python data model and synthesis functions are embedded shallowly:
floating-point numbers are modelled as rationals, the transcendental host
functions (sqrt, acos, pi) are abstracted into a record of interpretations
shared by both evaluators, Blender property collections become lists, and
the external animation-curve and scripted-driver stores become explicit
state records threaded through the update functions. -/

/-- Round-half-to-even of a rational, matching Python's rounding of an
exactly representable value. -/
def roundHalfEven (x : ℚ) : ℤ :=
  let n : ℤ := ⌊x⌋
  let r : ℚ := x - (n : ℚ)
  if r < 1/2 then n
  else if 1/2 < r then n + 1
  else if Even n then n else n + 1

/-- Python `round(x, p)`: round to `p` decimal places, ties to even. -/
def pyRound (p : ℕ) (x : ℚ) : ℚ :=
  (roundHalfEven (x * 10 ^ p) : ℚ) / 10 ^ p

/-- The three metric kinds of `Driver.type` (enum items at
`src/__init__.py:572`). -/
inductive Metric where
  | absolute
  | euclidean
  | quaternion
deriving DecidableEq, Repr

/-- The fields of `DriverVariable` used by the synthesis functions. -/
structure Variable where
  name : String
  rest_value : ℚ
  pose_value : ℚ
deriving DecidableEq, Repr

/-- The fields of `Driver` used by `fcurve_update` and `driver_update`. -/
structure DriverState where
  type : Metric
  precision : ℕ
  vars : List Variable  -- the source calls this field `variables`
deriving DecidableEq, Repr

/-- Interpretations for the transcendental host functions (`math.sqrt`,
`math.acos`, `math.pi` on the Python side; `sqrt`, `acos`, `pi` in the
scripted-expression evaluator).  Both evaluators apply the same machine
functions to the same arguments, so one record is shared by both sides. -/
structure RealFns where
  sqrt : ℚ → ℚ
  acos : ℚ → ℚ
  pi : ℚ

/-- A sample interpretation used by the concrete witnesses; its square
root is exact at 25, the only point where a witness needs it. -/
def sampleFns : RealFns where
  sqrt := fun x => if x = 25 then 5 else x
  acos := fun _ => 0
  pi := 355/113

/-- One keyframe point of the animation-curve store, with exactly the
fields `Driver.fcurve_update` writes (`src/__init__.py:479`). -/
structure Point where
  interpolation : String
  co : ℚ × ℚ
  handle_left_type : String
  handle_right_type : String
  handle_left : ℚ × ℚ
  handle_right : ℚ × ℚ
deriving DecidableEq, Repr

/-- The point written by the loop body of `fcurve_update`: bezier
interpolation, free handles, and the given co/handle coordinates.  Every
field of the pre-existing point is overwritten. -/
def mkPoint (co hl hr : ℚ × ℚ) : Point :=
  { interpolation := "BEZIER", co := co,
    handle_left_type := "FREE", handle_right_type := "FREE",
    handle_left := hl, handle_right := hr }

/-- `values` of `Driver.fcurve_update` (`src/__init__.py:463`): one
`(rest_value, round(pose_value, precision))` pair per variable. -/
def fcurveValues (d : DriverState) : List (ℚ × ℚ) :=
  d.vars.map fun v => (v.rest_value, pyRound d.precision v.pose_value)

/-- The anchor-distance computation of `Driver.fcurve_update`
(`src/__init__.py:469`), one branch per metric kind. -/
def metricValue (F : RealFns) (m : Metric) (values : List (ℚ × ℚ)) : ℚ :=
  match m with
  | .quaternion =>
      F.acos (2 * (max (min ((values.map fun rg => rg.1 * rg.2).sum) 1) (-1)) ^ 2 - 1) / F.pi
  | .euclidean => F.sqrt ((values.map fun rg => (rg.1 - rg.2) ^ 2).sum)
  | .absolute => ((values.map fun rg => |rg.1 - rg.2|).sum) / (values.length : ℚ)

/-- The `curve` local of `Driver.fcurve_update` (`src/__init__.py:465`):
the two synthesized control points, either the fixed default (no
variables) or the anchor-scaled pair. -/
def driverCurve (F : RealFns) (d : DriverState) : List Point :=
  let values := fcurveValues d
  if values = [] then
    [mkPoint (0, 1) (-(1/4), 1) (1/4, 3/4),
     mkPoint (1, 0) (3/4, 1/4) (5/4, 0)]
  else
    let value := metricValue F d.type values
    [mkPoint (0, 1) (-(1/4), 1) (value * (1/4), 3/4),
     mkPoint (value, 0) (value * (3/4), 1/4) (value * (5/4), 0)]

/-- The channel effect of `Driver.fcurve_update` (`src/__init__.py:452`):
pop points from the end while more than two remain, then overwrite the
remaining points pairwise with the synthesized curve (the `zip` loop at
line 479).  No point is ever inserted. -/
def fcurve_update (F : RealFns) (d : DriverState) (points : List Point) : List Point :=
  List.zipWith (fun _ new => new) (points.take 2) (driverCurve F d)

/-- x-coordinate of the second keyframe point of a channel, if present. -/
def secondX (points : List Point) : Option ℚ :=
  points[1]?.map fun pt => pt.co.1

/-- The constrained scripted-expression grammar emitted by
`Driver.driver_update` (`src/__init__.py:529`).  A symbol is identified
by the position of its variable in the driver's variable list (the code
names it after the variable; the evaluator binds it to that variable's
live value). -/
inductive Expr where
  | lit : ℚ → Expr
  | sym : ℕ → Expr
  | piE : Expr
  | add : Expr → Expr → Expr
  | sub : Expr → Expr → Expr
  | mul : Expr → Expr → Expr
  | div : Expr → Expr → Expr
  | fabs : Expr → Expr
  | sqrtE : Expr → Expr
  | powE : Expr → ℕ → Expr
  | acosE : Expr → Expr
  | clampE : Expr → Expr → Expr → Expr
deriving DecidableEq, Repr

/-- Evaluation of an expression by the live evaluator, with the symbols
bound positionally through `env` and the transcendental functions
interpreted through `F`.  `clamp(v, lo, hi)` is `min(max(v, lo), hi)`. -/
def evalExpr (F : RealFns) (env : List ℚ) : Expr → ℚ
  | .lit q => q
  | .sym i => env.getD i 0
  | .piE => F.pi
  | .add a b => evalExpr F env a + evalExpr F env b
  | .sub a b => evalExpr F env a - evalExpr F env b
  | .mul a b => evalExpr F env a * evalExpr F env b
  | .div a b => evalExpr F env a / evalExpr F env b
  | .fabs a => |evalExpr F env a|
  | .sqrtE a => F.sqrt (evalExpr F env a)
  | .powE a n => evalExpr F env a ^ n
  | .acosE a => F.acos (evalExpr F env a)
  | .clampE a lo hi => min (max (evalExpr F env a) (evalExpr F env lo)) (evalExpr F env hi)

/-- `"+".join(...)` over a list of sub-expressions: left-associated sum
(never applied to an empty list by the generator). -/
def joinAdd : List Expr → Expr
  | [] => .lit 0
  | e :: es => es.foldl .add e

/-- Default variable used for total list access. -/
def dfltVar : Variable := ⟨"", 0, 0⟩

/-- The per-variable terms of the expression: the loop of
`Driver.driver_update` appends, for the variable at position `i`, a term
built from symbol `i` and the literal `round(pose_value, precision)`. -/
def symExprs (f : Expr → ℚ → Expr) (p : ℕ) : ℕ → List Variable → List Expr
  | _, [] => []
  | i, v :: vs => f (.sym i) (pyRound p v.pose_value) :: symExprs f p (i + 1) vs

/-- The expression string of `Driver.driver_update`
(`src/__init__.py:529`), as an abstract tree: branch order follows the
code (empty, EUCLIDEAN, QUATERNION, single-variable, general ABSOLUTE). -/
def driverExpression (d : DriverState) : Expr :=
  let vars := d.vars
  let p := d.precision
  if vars.length = 0 then .lit 1
  else if d.type = .euclidean then
    .sqrtE (joinAdd (symExprs (fun s g => .powE (.sub s (.lit g)) 2) p 0 vars))
  else if d.type = .quaternion then
    .div (.acosE (.sub (.mul (.lit 2)
      (.powE (.clampE (joinAdd (symExprs (fun s g => .mul s (.lit g)) p 0 vars))
        (.lit (-1)) (.lit 1)) 2))
      (.lit 1))) .piE
  else if vars.length = 1 then
    .fabs (.sub (.sym 0) (.lit (pyRound p (vars.headD dfltVar).pose_value)))
  else
    .div (joinAdd (symExprs (fun s g => .fabs (.sub s (.lit g))) p 0 vars))
      (.lit (vars.length : ℚ))

/-- The environment binding each symbol to its variable's rest value. -/
def restEnv (d : DriverState) : List ℚ :=
  d.vars.map fun v => v.rest_value

/-- A two-variable Euclidean driver: rest (0,0), pose (3,4), precision 6. -/
def dEuclid34 : DriverState :=
  ⟨.euclidean, 6, [⟨"var0", 0, 3⟩, ⟨"var1", 0, 4⟩]⟩

/-- The same variables under the Absolute metric (anchor distance 7/2). -/
def dAbs34 : DriverState :=
  ⟨.absolute, 6, [⟨"var0", 0, 3⟩, ⟨"var1", 0, 4⟩]⟩

/-- The Absolute driver of the claim C2 concrete instance: two variables,
rest (0,0), pose (1, 0.5), precision 6. -/
def dAbs2 : DriverState := ⟨.absolute, 6, [⟨"var0", 0, 1⟩, ⟨"var1", 0, 1/2⟩]⟩

/-- An Absolute driver whose pose value 0.0001 is not representable at
its rounding precision 3. -/
def dC2cex : DriverState := ⟨.absolute, 3, [⟨"var", 0, 1/10000⟩]⟩

/-- A single-variable Euclidean driver used as the C3 witness input. -/
def dW3 : DriverState := ⟨.euclidean, 6, [⟨"x", 0, 3⟩]⟩

/-- A single-variable Absolute driver used for the C4 evaluation. -/
def dC4 : DriverState := ⟨.absolute, 6, [⟨"var", 0, 1⟩]⟩

/-- An arbitrary pre-existing keyframe point. -/
def pt0 : Point := mkPoint (0, 0) (0, 0) (0, 0)

/-- The Absolute-metric distance formula exactly as claim C2 states it
(spec section 4.1): mean of the absolute rest/pose differences, on raw
(unrounded) pose values. -/
def specAbsoluteMean (varsL : List Variable) : ℚ :=
  ((varsL.map fun v => |v.rest_value - v.pose_value|).sum) / (varsL.length : ℚ)

/-- The claim's metric formulas with each pose value first rounded to the
driver's precision (the quaternion kind is not covered by the claim). -/
def specDistRounded (F : RealFns) (p : ℕ) : Metric → List Variable → ℚ
  | .absolute, varsL =>
      ((varsL.map fun v => |v.rest_value - pyRound p v.pose_value|).sum) / (varsL.length : ℚ)
  | .euclidean, varsL =>
      F.sqrt ((varsL.map fun v => (v.rest_value - pyRound p v.pose_value) ^ 2).sum)
  | .quaternion, _ => 0

/-- The per-variable expression terms exactly as claim C3 lists them: for
each index i, a term of symbol_i and literal_i, where literal_i is
round(pose_value_i, precision). -/
def specTermsC3 (f : Expr → ℚ → Expr) (p : ℕ) (varsL : List Variable) : List Expr :=
  ((List.range varsL.length).zip varsL).map fun iv =>
    f (.sym iv.1) (pyRound p iv.2.pose_value)

/-- The expression dictated by claim C3: literal 1.0 for zero variables
regardless of metric; sqrt of summed squares for Euclidean; fabs of the
single difference for Absolute with one variable; the fabs sum divided by
the count for Absolute with two or more.  The quaternion kind is outside
the claim and is excluded by hypothesis. -/
def specExpressionC3 (d : DriverState) : Expr :=
  if d.vars.length = 0 then .lit 1
  else
    match d.type with
    | .euclidean =>
        .sqrtE (joinAdd (specTermsC3 (fun s g => .powE (.sub s (.lit g)) 2)
          d.precision d.vars))
    | .quaternion => .lit 1
    | .absolute =>
        if d.vars.length = 1 then
          .fabs (.sub (.sym 0) (.lit (pyRound d.precision (d.vars.headD dfltVar).pose_value)))
        else
          .div (joinAdd (specTermsC3 (fun s g => .fabs (.sub s (.lit g)))
            d.precision d.vars)) (.lit (d.vars.length : ℚ))

/-- The joint state of one Driver: its data, its animation-curve channel
and its scripted expression. -/
structure DriverSyncState where
  driver : DriverState
  points : List Point
  expr : Expr

/-- Mutating `Driver.type` (`src/__init__.py:572`): the enum property's
update callback is `driver_update` alone, so only the expression is
re-synthesized; the curve channel is left untouched. -/
def set_metric_type (m : Metric) (s : DriverSyncState) : DriverSyncState :=
  let d2 := { s.driver with type := m }
  { driver := d2, points := s.points, expr := driverExpression d2 }

/-- The synchronized state of `dAbs34`: both representations freshly
synthesized under the Absolute metric. -/
def sC5 : DriverSyncState :=
  ⟨dAbs34, driverCurve sampleFns dAbs34, driverExpression dAbs34⟩

/-- `Target.activation_mode` enum items (`src/__init__.py:694`). -/
inductive ActivationMode where
  | multiply
  | minimum
  | maximum
  | average
deriving DecidableEq, Repr

/-- The `type` of the external scripted driver object: SCRIPTED or one of
the host's native reduction types. -/
inductive BDriverType where
  | scripted
  | average
  | minimum
  | maximum
deriving DecidableEq, Repr

/-- The driver type the code assigns for a non-multiply activation mode
(`driver.type = self.activation_mode`, `src/__init__.py:688`). -/
def nativeDriverType : ActivationMode → BDriverType
  | .multiply => .scripted
  | .minimum => .minimum
  | .maximum => .maximum
  | .average => .average

/-- One variable binding of the external scripted-driver object, as
written by `Target.driver_update` (`src/__init__.py:674`). -/
structure BBinding where
  name : String
  id_type : String
  data_path : String
deriving DecidableEq, Repr

/-- The fields of `Target` used by its synthesis and rename functions.
`shape_keys` is `id_data.shape_keys`: `none` when the mesh has no shape
keys, otherwise the list of existing shape-key (key_blocks) names. -/
structure TargetState where
  name : String
  identifier : String
  activation_mode : ActivationMode
  mute : Bool
  driverCount : ℕ
  shape_keys : Option (List String)
  falloffPoints : List (ℚ × ℚ)
  radius : ℚ
  goal : ℚ
  clamp : Bool

/-- `Target.is_valid` (`src/__init__.py:732`): the shape-key datablock
exists and the target's name is among its key blocks. -/
def is_valid (t : TargetState) : Bool :=
  match t.shape_keys with
  | none => false
  | some ks => ks.contains t.name

/-- `Target.data_path` (`src/__init__.py:752`): the shape-key channel
path for the current name, empty when the name is empty. -/
def target_data_path (t : TargetState) : String :=
  if t.name = "" then "" else "key_blocks[\"" ++ t.name ++ "\"].value"

/-- The path `Target.name_set` (`src/__init__.py:648`) passes to
`driver_remove` for the previous name.  Note the dot between
`key_blocks` and the bracket, absent from `target_data_path`. -/
def renameRemovePath (prev : String) : String :=
  "key_blocks.[\"" ++ prev ++ "\"].value"

/-- The per-driver bindings rebuilt by `Target.driver_update`
(`src/__init__.py:674`): names d0..d(n-1), each a SINGLE_PROP binding on
the mesh addressing one slot of the private array. -/
def mkTargetBindings (t : TargetState) : List BBinding :=
  (List.range t.driverCount).map fun i =>
    ⟨"d" ++ toString i, "MESH", "[\"csk_" ++ t.identifier ++ "\"][" ++ toString i ++ "]"⟩

/-- The external scripted-driver channel of a Target: its mute flag and
driver object (type, expression text, variable bindings). -/
structure TChannel where
  mute : Bool
  dtype : BDriverType
  expression : String
  bindings : List BBinding
deriving DecidableEq, Repr

/-- The unguarded body of `Target.driver_update` (`src/__init__.py:665`):
set the channel's mute flag, rebuild the bindings, then either emit the
scripted product expression (MULTIPLY) or assign the native reduction
type, leaving the expression text as it was. -/
def target_driver_update_body (t : TargetState) (ch : TChannel) : TChannel :=
  let binds := mkTargetBindings t
  if t.activation_mode = .multiply then
    { mute := t.mute, dtype := .scripted,
      expression := String.intercalate "*"
        ((List.range t.driverCount).map fun i => "d" ++ toString i),
      bindings := binds }
  else
    { mute := t.mute, dtype := nativeDriverType t.activation_mode,
      expression := ch.expression, bindings := binds }

/-- `Target.driver_update` (`src/__init__.py:663`): a no-op unless the
target is valid. -/
def target_driver_update (t : TargetState) (ch : TChannel) : TChannel :=
  if is_valid t then target_driver_update_body t ch else ch

/-- Modelled from the spec: the body of `Target.fcurve_update` calls
`curve_mapping.to_bezier` and `keyframe_points_assign`, which live in the
add-on's `lib/curve_mapping` module, not present under `src/`.  Spec
section 4.4 states that the falloff control points are remapped onto the
x-domain [1 - radius, 1] and the y-domain [0, goal]; handle and
extrapolation details are elided. -/
def target_fcurve_body (t : TargetState) : List (ℚ × ℚ) :=
  t.falloffPoints.map fun pq => (1 - t.radius + pq.1 * t.radius, pq.2 * t.goal)

/-- `Target.fcurve_update` (`src/__init__.py:651`): a no-op unless the
target is valid; otherwise it rewrites its channel with the remapped
falloff curve. -/
def target_fcurve_update (t : TargetState) (ch : List (ℚ × ℚ)) : List (ℚ × ℚ) :=
  if is_valid t then target_fcurve_body t else ch

/-- `driver_ensure` (`src/__init__.py:111`) on the scripted-driver store
of the shape-key datablock, modelled as the list of channel paths that
carry a driver: adds the path if absent. -/
def ensurePath (store : List String) (path : String) : List String :=
  if path ∈ store then store else store ++ [path]

/-- `Target.name_set` (`src/__init__.py:641`): when the value changes,
store the new name, remove the driver at `renameRemovePath` of the
previous name (if the previous name was non-empty and the shape-key
datablock exists, tolerating absence), then run `update()`, whose two
synthesis calls ensure a driver at the new name's channel path when the
renamed target is valid. -/
def target_name_set (t : TargetState) (store : List String) (value : String) :
    TargetState × List String :=
  if t.name = value then (t, store)
  else
    let t2 := { t with name := value }
    let store2 :=
      if t.name = "" then store
      else
        match t.shape_keys with
        | none => store
        | some _ => store.erase (renameRemovePath t.name)
    let store3 := if is_valid t2 then ensurePath store2 (target_data_path t2) else store2
    (t2, store3)

/-- A Target named "Smile" on a mesh whose shape keys are Smile and
Frown; its channel carries a scripted driver. -/
def tSmile : TargetState :=
  { name := "Smile", identifier := "id0", activation_mode := .multiply,
    mute := false, driverCount := 0, shape_keys := some ["Smile", "Frown"],
    falloffPoints := [], radius := 1, goal := 1, clamp := true }

/-- A valid Target with two Drivers and Average activation. -/
def tAvg : TargetState :=
  { name := "Key", identifier := "abc", activation_mode := .average,
    mute := false, driverCount := 2, shape_keys := some ["Key"],
    falloffPoints := [(0, 0), (1, 1)], radius := 1/2, goal := 2, clamp := true }

/-- A Target whose name is not among the existing shape keys. -/
def tBad : TargetState :=
  { name := "Nope", identifier := "idb", activation_mode := .multiply,
    mute := false, driverCount := 1, shape_keys := some ["A"],
    falloffPoints := [(0, 0), (1, 1)], radius := 1, goal := 1, clamp := true }

/-- The same Target after its name matches the existing shape key. -/
def tGood : TargetState :=
  { name := "A", identifier := "idb", activation_mode := .multiply,
    mute := false, driverCount := 1, shape_keys := some ["A"],
    falloffPoints := [(0, 0), (1, 1)], radius := 1, goal := 1, clamp := true }

/-- An arbitrary pre-existing scripted-driver channel. -/
def ch0 : TChannel := ⟨false, .scripted, "", []⟩

/-- The part of a Target the array-maintenance operators touch. -/
structure CskTarget where
  identifier : String
  driverCount : ℕ

/-- The owning mesh: its target and its custom id-properties (name to
numeric array). -/
structure Mesh9 where
  target : CskTarget
  idprops : List (String × List ℚ)

/-- The name of the per-Target private array: `csk_<identifier>`. -/
def arrayKey (identifier : String) : String := "csk_" ++ identifier

/-- Assignment to a mesh id-property: replaces the whole entry. -/
def idpSet (store : List (String × List ℚ)) (k : String) (v : List ℚ) :
    List (String × List ℚ) :=
  (k, v) :: store.filter fun kv => ¬ (kv.1 == k)

/-- Lookup of a mesh id-property. -/
def idpGet (store : List (String × List ℚ)) (k : String) : Option (List ℚ) :=
  (store.find? fun kv => kv.1 == k).map fun kv => kv.2

/-- `TargetAdd.execute` (`src/__init__.py:1548`): creates the target,
writes `csk_<identifier>` as a fresh zero array of the selected drivers'
count, then adds one Driver per selected shape key. -/
def targetAddExec (ident : String) (selected : List String)
    (idprops : List (String × List ℚ)) : Mesh9 :=
  { target := ⟨ident, selected.length⟩,
    idprops := idpSet idprops (arrayKey ident) (List.replicate selected.length 0) }

/-- The SHAPEKEY branch of `DriverAdd.execute` (`src/__init__.py:1234`):
when any keys are selected, the array is rewritten as zeros of length
old-count + selected-count before the drivers are appended; with no
selection nothing happens. -/
def driverAddShape (m : Mesh9) (keys : List String) : Mesh9 :=
  if keys.isEmpty then m
  else
    { target := ⟨m.target.identifier, m.target.driverCount + keys.length⟩,
      idprops := idpSet m.idprops (arrayKey m.target.identifier)
        (List.replicate (m.target.driverCount + keys.length) 0) }

/-- The non-SHAPEKEY branch of `DriverAdd.execute`
(`src/__init__.py:1259`): one driver is appended and the array rewritten
as zeros of the new count. -/
def driverAddOther (m : Mesh9) : Mesh9 :=
  { target := ⟨m.target.identifier, m.target.driverCount + 1⟩,
    idprops := idpSet m.idprops (arrayKey m.target.identifier)
      (List.replicate (m.target.driverCount + 1) 0) }

/-- `DriverRemove.execute` (`src/__init__.py:1406`): the active driver is
removed and the array rewritten as zeros of the remaining count (the
operator's poll guarantees an active driver exists). -/
def driverRemoveExec (m : Mesh9) : Mesh9 :=
  { target := ⟨m.target.identifier, m.target.driverCount - 1⟩,
    idprops := idpSet m.idprops (arrayKey m.target.identifier)
      (List.replicate (m.target.driverCount - 1) 0) }

/-- A mesh with one target of one driver and its array in place. -/
def m9 : Mesh9 := ⟨⟨"tid", 1⟩, [("csk_tid", [0])]⟩

/-- Python list access of the underlying collection: negative keys index
from the end; out of range yields absence (the collection raises). -/
def pyGet {α : Type} (l : List α) (key : ℤ) : Option α :=
  let i : ℤ := if key < 0 then key + l.length else key
  if i < 0 then none else l[i.toNat]?

/-- `DriverVariables.__getitem__` on an int key (`src/__init__.py:402`):
the explicit guard `0 > key >= len(self)` raises IndexError (error
payload `true`); otherwise the underlying collection is indexed and
itself raises on out-of-range (error payload `false`). -/
def variables_getitem {α : Type} (l : List α) (key : ℤ) : Except Bool α :=
  if 0 > key ∧ (l.length : ℤ) ≤ key then .error true
  else
    match pyGet l key with
    | some v => .ok v
    | none => .error false

/-- `DriverVariableRemove.execute` (`src/__init__.py:957`): the operator
index is non-negative; an IndexError from `variables[index]` cancels the
operator leaving the list unchanged, otherwise the variable is removed. -/
def driver_variable_remove {α : Type} (l : List α) (index : ℕ) : Option (List α) :=
  match variables_getitem l (index : ℤ) with
  | .error _ => none
  | .ok _ => some (l.eraseIdx index)

lemma evalExpr_foldl_add (F : RealFns) (env : List ℚ) :
    ∀ (es : List Expr) (e : Expr),
      evalExpr F env (es.foldl .add e)
        = evalExpr F env e + (es.map (evalExpr F env)).sum := by
  intro es
  induction es with
  | nil => intro e; simp
  | cons a es ih =>
      intro e
      rw [List.foldl_cons, ih (Expr.add e a)]
      simp [evalExpr]
      ring

lemma evalExpr_joinAdd (F : RealFns) (env : List ℚ) (l : List Expr) :
    evalExpr F env (joinAdd l) = (l.map (evalExpr F env)).sum := by
  cases l with
  | nil => simp [joinAdd, evalExpr]
  | cons e es => simp [joinAdd, evalExpr_foldl_add]

lemma getD_map_rest :
    ∀ (l : List Variable) (k : ℕ), k < l.length →
      (l.map fun v => v.rest_value).getD k 0 = (l.getD k dfltVar).rest_value := by
  intro l
  induction l with
  | nil => intro k hk; simp at hk
  | cons v tl ih =>
      intro k hk
      cases k with
      | zero => simp [List.getD]
      | succ k =>
          simp only [List.map_cons, List.getD_cons_succ]
          exact ih k (by simpa using Nat.lt_of_succ_lt_succ hk)

lemma symExprs_eval_sum (F : RealFns) (env : List ℚ) (p : ℕ)
    (f : Expr → ℚ → Expr) (g : ℚ → ℚ → ℚ)
    (hf : ∀ (i : ℕ) (q : ℚ), evalExpr F env (f (.sym i) q) = g (env.getD i 0) q) :
    ∀ (vs : List Variable) (i : ℕ),
      (∀ k, k < vs.length → env.getD (i + k) 0 = (vs.getD k dfltVar).rest_value) →
      ((symExprs f p i vs).map (evalExpr F env)).sum
        = (vs.map fun v => g v.rest_value (pyRound p v.pose_value)).sum := by
  intro vs
  induction vs with
  | nil => intro i _; simp [symExprs]
  | cons v tl ih =>
      intro i h
      have h0 : env.getD i 0 = v.rest_value := by
        have := h 0 (by simp)
        simpa using this
      have hrec := ih (i + 1) (fun k hk => by
        have hk1 : k + 1 < (v :: tl).length := by simpa using Nat.succ_lt_succ hk
        have := h (k + 1) hk1
        rw [show i + (k + 1) = i + 1 + k by omega] at this
        simpa [List.getD_cons_succ] using this)
      simp only [symExprs, List.map_cons, List.sum_cons, hf, h0, hrec]

lemma clamp_pm_one (x : ℚ) : min (max x (-1)) 1 = max (min x 1) (-1) := by
  simp only [min_def, max_def]
  split_ifs <;> linarith

/-- C1: for a Driver with at least one variable, the scripted expression
produced by driver_update, evaluated with each symbol bound to its
variable's rest value (and any interpretation of the transcendental host
functions, shared by both evaluators), equals the anchor distance that
fcurve_update computes as the x-coordinate of the second synthesized
curve point; both sides round pose values to the driver's precision. -/
theorem c1_expression_matches_curve_anchor (F : RealFns) (d : DriverState)
    (h : d.vars ≠ []) :
    secondX (driverCurve F d) = some (evalExpr F (restEnv d) (driverExpression d)) := by
  have hv : fcurveValues d ≠ [] := by simpa [fcurveValues] using h
  have hlen : ¬ d.vars.length = 0 := by simpa [List.length_eq_zero] using h
  have henv : ∀ k, k < d.vars.length →
      (restEnv d).getD k 0 = (d.vars.getD k dfltVar).rest_value := fun k hk =>
    getD_map_rest d.vars k hk
  have henv0 : ∀ k, k < d.vars.length →
      (restEnv d).getD (0 + k) 0 = (d.vars.getD k dfltVar).rest_value := fun k hk => by
    simpa using henv k hk
  have hcurve : secondX (driverCurve F d) = some (metricValue F d.type (fcurveValues d)) := by
    simp [driverCurve, hv, secondX, mkPoint]
  rw [hcurve]
  congr 1
  cases hdt : d.type with
  | euclidean =>
      have hgen : driverExpression d
          = .sqrtE (joinAdd (symExprs (fun s g => .powE (.sub s (.lit g)) 2)
              d.precision 0 d.vars)) := by
        simp [driverExpression, hlen, hdt]
      rw [hgen]
      simp only [evalExpr]
      rw [evalExpr_joinAdd,
        symExprs_eval_sum F (restEnv d) d.precision (fun s g => .powE (.sub s (.lit g)) 2)
          (fun r q => (r - q) ^ 2) (fun i q => rfl) d.vars 0 henv0]
      simp only [metricValue, fcurveValues, List.map_map]
      rfl
  | quaternion =>
      have hgen : driverExpression d
          = .div (.acosE (.sub (.mul (.lit 2)
              (.powE (.clampE (joinAdd (symExprs (fun s g => .mul s (.lit g))
                d.precision 0 d.vars)) (.lit (-1)) (.lit 1)) 2))
              (.lit 1))) .piE := by
        simp [driverExpression, hlen, hdt]
      rw [hgen]
      simp only [evalExpr]
      rw [clamp_pm_one, evalExpr_joinAdd,
        symExprs_eval_sum F (restEnv d) d.precision (fun s g => .mul s (.lit g))
          (fun r q => r * q) (fun i q => rfl) d.vars 0 henv0]
      simp only [metricValue, fcurveValues, List.map_map]
      rfl
  | absolute =>
      by_cases h1 : d.vars.length = 1
      · obtain ⟨v, hv1⟩ := List.length_eq_one.mp h1
        have hgen : driverExpression d
            = .fabs (.sub (.sym 0) (.lit (pyRound d.precision
                (d.vars.headD dfltVar).pose_value))) := by
          simp [driverExpression, hlen, hdt, h1]
        rw [hgen]
        simp [metricValue, fcurveValues, hv1, evalExpr, restEnv]
      · have hgen : driverExpression d
            = .div (joinAdd (symExprs (fun s g => .fabs (.sub s (.lit g)))
                d.precision 0 d.vars)) (.lit (d.vars.length : ℚ)) := by
          simp [driverExpression, hlen, hdt, h1]
        rw [hgen]
        simp only [evalExpr]
        rw [evalExpr_joinAdd,
          symExprs_eval_sum F (restEnv d) d.precision (fun s g => .fabs (.sub s (.lit g)))
            (fun r q => |r - q|) (fun i q => rfl) d.vars 0 henv0]
        simp only [metricValue, fcurveValues, List.map_map, List.length_map]
        rfl

/-- C1 witness: the agreement theorem instantiated on `dEuclid34`. -/
theorem c1_expression_matches_curve_anchor_witness :
    dEuclid34.vars ≠ [] ∧
      secondX (driverCurve sampleFns dEuclid34)
        = some (evalExpr sampleFns (restEnv dEuclid34) (driverExpression dEuclid34)) :=
  ⟨by simp [dEuclid34], c1_expression_matches_curve_anchor sampleFns dEuclid34 (by simp [dEuclid34])⟩

lemma roundHalfEven_intCast (m : ℤ) : roundHalfEven ((m : ℤ) : ℚ) = m := by
  simp only [roundHalfEven, Int.floor_intCast]
  norm_num

lemma pyRound_exact (p : ℕ) (x : ℚ) (m : ℤ) (h : x * 10 ^ p = (m : ℚ)) :
    pyRound p x = x := by
  have hp : (10 : ℚ) ^ p ≠ 0 := by positivity
  simp only [pyRound, h, roundHalfEven_intCast]
  rw [← h]
  field_simp

lemma pyRound_small (p : ℕ) (x : ℚ) (h0 : 0 ≤ x * 10 ^ p) (h1 : x * 10 ^ p < 1/2) :
    pyRound p x = 0 := by
  have hf : ⌊x * 10 ^ p⌋ = 0 := by
    rw [Int.floor_eq_zero_iff, Set.mem_Ico]
    exact ⟨h0, by linarith⟩
  simp only [pyRound, roundHalfEven, hf]
  rw [if_pos (by push_cast; linarith)]
  norm_num

lemma driverCurve_nonempty (F : RealFns) (d : DriverState) (h : fcurveValues d ≠ []) :
    driverCurve F d =
      [mkPoint (0, 1) (-(1/4), 1) (metricValue F d.type (fcurveValues d) * (1/4), 3/4),
       mkPoint (metricValue F d.type (fcurveValues d), 0)
         (metricValue F d.type (fcurveValues d) * (3/4), 1/4)
         (metricValue F d.type (fcurveValues d) * (5/4), 0)] := by
  simp only [driverCurve, if_neg h]

/-- C2 counterexample: for `dC2cex` (one variable, rest 0, pose 1/10000,
precision 3) the anchor distance written as the second curve point's
x-coordinate is 0, because the code rounds the pose value to the
driver's precision first, while the claimed formula on raw values gives
1/10000. -/
theorem c2_metric_formula_counterexample :
    secondX (driverCurve sampleFns dC2cex) ≠ some (specAbsoluteMean dC2cex.vars) := by
  have hr : pyRound 3 (1/10000) = 0 := pyRound_small 3 (1/10000) (by norm_num) (by norm_num)
  have hv2 : fcurveValues dC2cex = [(0, 0)] := by
    simp only [fcurveValues, dC2cex, List.map_cons, List.map_nil]
    rw [hr]
  have hv : fcurveValues dC2cex ≠ [] := by rw [hv2]; simp
  have ht : dC2cex.type = Metric.absolute := rfl
  have hm : metricValue sampleFns dC2cex.type (fcurveValues dC2cex) = 0 := by
    rw [hv2, ht]
    simp [metricValue]
  have hspec : specAbsoluteMean dC2cex.vars = 1/10000 := by
    simp only [specAbsoluteMean, dC2cex, List.map_cons, List.map_nil, List.sum_cons,
      List.sum_nil, List.length_cons, List.length_nil]
    rw [abs_sub_comm, sub_zero, abs_of_nonneg (by norm_num : (0:ℚ) ≤ 1/10000)]
    norm_num
  rw [driverCurve_nonempty sampleFns dC2cex hv, hm, hspec]
  simp only [secondX, mkPoint, List.getElem?_cons_succ, List.getElem?_cons_zero,
    Option.map_some', ne_eq, Option.some.injEq]
  norm_num

/-- C2 (amended): with a non-empty variable list and a non-quaternion
metric, the synthesized curve is the two-point pair anchored at the
claim's formula distance computed on rounded pose values: points (0,1)
and (D,0) with D-proportional handles. -/
theorem c2_curve_follows_rounded_metric (F : RealFns) (d : DriverState)
    (h : d.vars ≠ []) (hq : d.type ≠ .quaternion) :
    driverCurve F d =
      [mkPoint (0, 1) (-(1/4), 1)
         (specDistRounded F d.precision d.type d.vars * (1/4), 3/4),
       mkPoint (specDistRounded F d.precision d.type d.vars, 0)
         (specDistRounded F d.precision d.type d.vars * (3/4), 1/4)
         (specDistRounded F d.precision d.type d.vars * (5/4), 0)] := by
  have hv : fcurveValues d ≠ [] := by simpa [fcurveValues] using h
  have hmv : metricValue F d.type (fcurveValues d)
      = specDistRounded F d.precision d.type d.vars := by
    cases hdt : d.type with
    | absolute =>
        simp only [metricValue, specDistRounded, fcurveValues, List.map_map, List.length_map]
        rfl
    | euclidean =>
        simp only [metricValue, specDistRounded, fcurveValues, List.map_map]
        rfl
    | quaternion => exact absurd hdt hq
  rw [driverCurve_nonempty F d hv, hmv]

/-- C2 witness: on the claim's concrete instance `dAbs2` the rounded
formula distance is 3/4 and the two synthesized points are (0,1) and
(3/4,0). -/
theorem c2_curve_follows_rounded_metric_witness :
    dAbs2.vars ≠ [] ∧ dAbs2.type ≠ .quaternion ∧
      specDistRounded sampleFns dAbs2.precision dAbs2.type dAbs2.vars = 3/4 ∧
      driverCurve sampleFns dAbs2 =
        [mkPoint (0, 1) (-(1/4), 1) (3/16, 3/4),
         mkPoint (3/4, 0) (9/16, 1/4) (15/16, 0)] := by
  have h1 : pyRound 6 1 = 1 := pyRound_exact 6 1 1000000 (by norm_num)
  have h2 : pyRound 6 (1/2) = 1/2 := pyRound_exact 6 (1/2) 500000 (by norm_num)
  have ha1 : |(0 : ℚ) - 1| = 1 := by
    rw [abs_sub_comm, sub_zero, abs_one]
  have ha2 : |(0 : ℚ) - 1/2| = 1/2 := by
    rw [abs_sub_comm, sub_zero]
    exact abs_of_nonneg (by norm_num)
  have hD : specDistRounded sampleFns dAbs2.precision dAbs2.type dAbs2.vars = 3/4 := by
    have hv2 : dAbs2.vars = [⟨"var0", 0, 1⟩, ⟨"var1", 0, 1/2⟩] := rfl
    have hp2 : dAbs2.precision = 6 := rfl
    have ht2 : dAbs2.type = Metric.absolute := rfl
    rw [hp2, ht2, hv2]
    simp only [specDistRounded, List.map_cons, List.map_nil, List.sum_cons,
      List.sum_nil, List.length_cons, List.length_nil]
    rw [h1, h2, ha1, ha2]
    norm_num
  refine ⟨by simp [dAbs2], by simp [dAbs2], hD, ?_⟩
  rw [c2_curve_follows_rounded_metric sampleFns dAbs2 (by simp [dAbs2]) (by simp [dAbs2]), hD]
  norm_num [mkPoint]

lemma symExprs_eq_range' (f : Expr → ℚ → Expr) (p : ℕ) :
    ∀ (vs : List Variable) (i : ℕ),
      symExprs f p i vs
        = ((List.range' i vs.length).zip vs).map fun iv =>
            f (.sym iv.1) (pyRound p iv.2.pose_value) := by
  intro vs
  induction vs with
  | nil => intro i; simp [symExprs]
  | cons v tl ih =>
      intro i
      rw [show (v :: tl).length = tl.length + 1 from rfl, List.range'_succ]
      simp only [List.zip_cons_cons, List.map_cons, symExprs]
      rw [ih (i + 1)]

lemma symExprs_eq_specTerms (f : Expr → ℚ → Expr) (p : ℕ) (varsL : List Variable) :
    symExprs f p 0 varsL = specTermsC3 f p varsL := by
  rw [specTermsC3, List.range_eq_range', symExprs_eq_range']

/-- C3: driver_update's expression has exactly the shape the claim
dictates for each metric kind and variable count (quaternion drivers,
which the claim does not cover, are excluded unless empty). -/
theorem c3_expression_shape (d : DriverState)
    (h : d.type = .quaternion → d.vars = []) :
    driverExpression d = specExpressionC3 d := by
  by_cases h0 : d.vars.length = 0
  · simp [driverExpression, specExpressionC3, h0]
  · cases hdt : d.type with
    | euclidean =>
        simp [driverExpression, specExpressionC3, h0, hdt, symExprs_eq_specTerms]
    | quaternion => exact absurd (by simp [h hdt]) h0
    | absolute =>
        by_cases h1 : d.vars.length = 1
        · simp [driverExpression, specExpressionC3, h0, hdt, h1]
        · simp [driverExpression, specExpressionC3, h0, hdt, h1, symExprs_eq_specTerms]

/-- C3 witness: the shape theorem instantiated on `dW3`. -/
theorem c3_expression_shape_witness :
    (dW3.type = .quaternion → dW3.vars = []) ∧ driverExpression dW3 = specExpressionC3 dW3 :=
  ⟨fun h => by simp [dW3] at h, c3_expression_shape dW3 (fun h => by simp [dW3] at h)⟩

lemma driverCurve_length (F : RealFns) (d : DriverState) :
    (driverCurve F d).length = 2 := by
  simp only [driverCurve]
  split <;> rfl

/-- C4: `Driver.fcurve_update` never inserts keyframe points — it only
removes surplus points and overwrites existing ones pairwise.  On a
channel with no pre-existing points (a freshly created driver F-curve)
it writes nothing, leaving zero points instead of the claimed two; with
one pre-existing point only one point remains. -/
theorem c4_fcurve_update_never_inserts :
    fcurve_update sampleFns dC4 [] = []
      ∧ (fcurve_update sampleFns dC4 [pt0]).length = 1
      ∧ fcurve_update sampleFns dC4 [pt0, pt0, pt0] = driverCurve sampleFns dC4 := by
  refine ⟨rfl, ?_, ?_⟩
  · simp [fcurve_update, List.length_zipWith, driverCurve_length]
  · rw [fcurve_update, show ([pt0, pt0, pt0] : List Point).take 2 = [pt0, pt0] from rfl,
      show driverCurve sampleFns dC4 = [(driverCurve sampleFns dC4).headD pt0,
        (driverCurve sampleFns dC4).getD 1 pt0] from by
          simp only [driverCurve]
          split <;> rfl]
    rfl

/-- C5: mutating the metric type runs only `driver_update` (the enum
property's update callback), so the two representations fall out of
sync.  Starting from `sC5` (Absolute metric, curve and expression both
synthesized, anchor 7/2), switching the type to Euclidean leaves the
curve's second-point x-coordinate at 7/2 while the newly selected metric
and the re-synthesized expression both give 5. -/
theorem c5_type_change_leaves_curve_stale :
    (set_metric_type .euclidean sC5).points = sC5.points
      ∧ secondX (set_metric_type .euclidean sC5).points = some (7/2)
      ∧ metricValue sampleFns (set_metric_type .euclidean sC5).driver.type
          (fcurveValues (set_metric_type .euclidean sC5).driver) = 5
      ∧ evalExpr sampleFns (restEnv (set_metric_type .euclidean sC5).driver)
          (set_metric_type .euclidean sC5).expr = 5
      ∧ (7/2 : ℚ) ≠ 5 := by
  have h3 : pyRound 6 3 = 3 := pyRound_exact 6 3 3000000 (by norm_num)
  have h4 : pyRound 6 4 = 4 := pyRound_exact 6 4 4000000 (by norm_num)
  have ha3 : |(0 : ℚ) - 3| = 3 := by
    rw [abs_sub_comm, sub_zero]
    exact abs_of_nonneg (by norm_num)
  have ha4 : |(0 : ℚ) - 4| = 4 := by
    rw [abs_sub_comm, sub_zero]
    exact abs_of_nonneg (by norm_num)
  have hd2 : (set_metric_type .euclidean sC5).driver = dEuclid34 := rfl
  have hv34 : fcurveValues dAbs34 = [(0, 3), (0, 4)] := by
    simp only [fcurveValues, dAbs34, List.map_cons, List.map_nil]
    rw [h3, h4]
  have hv34e : fcurveValues dEuclid34 = [(0, 3), (0, 4)] := by
    simp only [fcurveValues, dEuclid34, List.map_cons, List.map_nil]
    rw [h3, h4]
  have hm34 : metricValue sampleFns dAbs34.type (fcurveValues dAbs34) = 7/2 := by
    rw [hv34, show dAbs34.type = Metric.absolute from rfl]
    simp only [metricValue, List.map_cons, List.map_nil, List.sum_cons, List.sum_nil,
      List.length_cons, List.length_nil]
    rw [ha3, ha4]
    norm_num
  have hpts : (set_metric_type .euclidean sC5).points = driverCurve sampleFns dAbs34 := rfl
  have hsx : secondX (driverCurve sampleFns dAbs34) = some (7/2) := by
    have hvne : fcurveValues dAbs34 ≠ [] := by rw [hv34]; simp
    rw [driverCurve_nonempty sampleFns dAbs34 hvne, hm34]
    simp [secondX, mkPoint]
  have hme : metricValue sampleFns Metric.euclidean (fcurveValues dEuclid34) = 5 := by
    rw [hv34e]
    simp only [metricValue, List.map_cons, List.map_nil, List.sum_cons, List.sum_nil]
    norm_num
    simp [sampleFns]
  have hexp : driverExpression dEuclid34
      = .sqrtE (.add (.powE (.sub (.sym 0) (.lit (pyRound 6 3))) 2)
          (.powE (.sub (.sym 1) (.lit (pyRound 6 4))) 2)) := by
    simp [driverExpression, dEuclid34, symExprs, joinAdd]
  have heval : evalExpr sampleFns (restEnv dEuclid34) (driverExpression dEuclid34) = 5 := by
    rw [hexp, h3, h4]
    simp only [evalExpr, restEnv, dEuclid34, List.map_cons, List.map_nil,
      List.getD_cons_zero, List.getD_cons_succ]
    norm_num
    simp [sampleFns]
  refine ⟨rfl, ?_, ?_, ?_, by norm_num⟩
  · rw [hpts]
    exact hsx
  · rw [hd2, show dEuclid34.type = Metric.euclidean from rfl]
    exact hme
  · rw [show (set_metric_type .euclidean sC5).expr = driverExpression dEuclid34 from rfl, hd2]
    exact heval

/-- C6 counterexample: on a valid Target with Average activation, the
code assigns the host's native AVERAGE reduction type and leaves the
expression text untouched; the activation is not produced as a scripted
expression. -/
theorem c6_average_not_scripted_counterexample :
    (target_driver_update tAvg ch0).dtype ≠ BDriverType.scripted
      ∧ (target_driver_update tAvg ch0).expression = ch0.expression := by
  have hvalid : is_valid tAvg = true := by
    simp only [is_valid, tAvg]
    simp
  have hcond : (tAvg.activation_mode = ActivationMode.multiply) = False := by
    simp [tAvg]
  have hres : target_driver_update tAvg ch0
      = { mute := false, dtype := .average, expression := "",
          bindings := mkTargetBindings tAvg } := by
    rw [target_driver_update, if_pos hvalid, target_driver_update_body]
    simp only [hcond, if_false]
    rfl
  rw [hres]
  exact ⟨by simp, rfl⟩

/-- C6 (amended): for every valid Target with Average activation,
`Target.driver_update` sets the external driver to the host's native
AVERAGE reduction over the per-Driver bindings d0..d(n-1), leaving the
expression text as it was, rather than emitting a scripted mean
expression. -/
theorem c6_average_native_reduction (t : TargetState) (ch : TChannel)
    (hv : is_valid t = true) (hm : t.activation_mode = .average) :
    target_driver_update t ch
      = { mute := t.mute, dtype := .average, expression := ch.expression,
          bindings := mkTargetBindings t } := by
  simp [target_driver_update, hv, target_driver_update_body, hm, nativeDriverType]

/-- C6 witness: the amended theorem instantiated on `tAvg`. -/
theorem c6_average_native_reduction_witness :
    is_valid tAvg = true ∧ tAvg.activation_mode = .average ∧
      target_driver_update tAvg ch0
        = { mute := tAvg.mute, dtype := .average, expression := ch0.expression,
            bindings := mkTargetBindings tAvg } :=
  ⟨by simp only [is_valid, tAvg]; simp, rfl,
    c6_average_native_reduction tAvg ch0 (by simp only [is_valid, tAvg]; simp) rfl⟩

/-- C7: renaming a Target does not remove the stale binding.  The
removal path contains a stray dot (`key_blocks.["..."].value`) and so
differs from the channel-path format bindings are created under; after
renaming "Smile" to "Frown" the driver at the previous name's channel
path is still present in the store. -/
theorem c7_rename_leaves_stale_binding :
    renameRemovePath "Smile" ≠ target_data_path tSmile
      ∧ target_data_path tSmile ∈ (target_name_set tSmile [target_data_path tSmile] "Frown").2 := by
  constructor
  · decide
  · decide

/-- C8: with the mesh's shape keys present, a Target whose name is not
among them is invalid and both synthesis functions leave their channels
untouched; when the name is among them, the target is valid and both
functions perform the normal (unguarded) synthesis. -/
theorem c8_invalid_target_noop (t : TargetState) (ks : List String)
    (hks : t.shape_keys = some ks) (chF : List (ℚ × ℚ)) (chD : TChannel) :
    (t.name ∉ ks → is_valid t = false
        ∧ target_fcurve_update t chF = chF ∧ target_driver_update t chD = chD)
      ∧ (t.name ∈ ks → is_valid t = true
        ∧ target_fcurve_update t chF = target_fcurve_body t
        ∧ target_driver_update t chD = target_driver_update_body t chD) := by
  constructor
  · intro hn
    have hv : is_valid t = false := by
      simp only [is_valid, hks]
      simpa using hn
    exact ⟨hv, by simp [target_fcurve_update, hv], by simp [target_driver_update, hv]⟩
  · intro hn
    have hv : is_valid t = true := by
      simp only [is_valid, hks]
      simpa using hn
    exact ⟨hv, by simp [target_fcurve_update, hv], by simp [target_driver_update, hv]⟩

/-- C8 witness: the no-op/normal-synthesis theorem instantiated on the
invalid Target `tBad` and the valid Target `tGood`. -/
theorem c8_invalid_target_noop_witness :
    (is_valid tBad = false ∧ target_fcurve_update tBad [(5, 5)] = [(5, 5)]
      ∧ target_driver_update tBad ch0 = ch0)
    ∧ (is_valid tGood = true ∧ target_fcurve_update tGood [(5, 5)] = target_fcurve_body tGood
      ∧ target_driver_update tGood ch0 = target_driver_update_body tGood ch0) :=
  ⟨(c8_invalid_target_noop tBad ["A"] rfl [(5, 5)] ch0).1 (by simp [tBad]),
   (c8_invalid_target_noop tGood ["A"] rfl [(5, 5)] ch0).2 (by simp [tGood])⟩

lemma idpGet_set (store : List (String × List ℚ)) (k : String) (v : List ℚ) :
    idpGet (idpSet store k v) k = some v := by
  rw [idpSet, idpGet, List.find?_cons_of_pos _ (by simp)]
  rfl

/-- C9: after TargetAdd, after either DriverAdd branch (provided the
SHAPEKEY branch actually adds keys), and after DriverRemove, the mesh
id-property `csk_<identifier>` holds a freshly written all-zero array
whose length equals the Target's driver count. -/
theorem c9_array_length_matches_drivers (mh : Mesh9) (ident : String)
    (sel keys : List String) (hk : keys ≠ []) (hc : 0 < mh.target.driverCount) :
    (idpGet (targetAddExec ident sel mh.idprops).idprops (arrayKey ident)
        = some (List.replicate (targetAddExec ident sel mh.idprops).target.driverCount 0))
    ∧ (idpGet (driverAddShape mh keys).idprops (arrayKey (driverAddShape mh keys).target.identifier)
        = some (List.replicate (driverAddShape mh keys).target.driverCount 0))
    ∧ (idpGet (driverAddOther mh).idprops (arrayKey (driverAddOther mh).target.identifier)
        = some (List.replicate (driverAddOther mh).target.driverCount 0))
    ∧ (idpGet (driverRemoveExec mh).idprops (arrayKey (driverRemoveExec mh).target.identifier)
        = some (List.replicate (driverRemoveExec mh).target.driverCount 0)) := by
  obtain ⟨a, as, rfl⟩ := List.exists_cons_of_ne_nil hk
  refine ⟨?_, ?_, ?_, ?_⟩ <;>
    simp [targetAddExec, driverAddShape, driverAddOther, driverRemoveExec, idpGet_set]

/-- C9 witness: the array-maintenance theorem instantiated on `m9` with
one selected key and two selected drivers. -/
theorem c9_array_length_matches_drivers_witness :
    (["K"] : List String) ≠ [] ∧ 0 < m9.target.driverCount ∧
      ((idpGet (targetAddExec "t2" ["A", "B"] m9.idprops).idprops (arrayKey "t2")
          = some (List.replicate (targetAddExec "t2" ["A", "B"] m9.idprops).target.driverCount 0))
      ∧ (idpGet (driverAddShape m9 ["K"]).idprops (arrayKey (driverAddShape m9 ["K"]).target.identifier)
          = some (List.replicate (driverAddShape m9 ["K"]).target.driverCount 0))
      ∧ (idpGet (driverAddOther m9).idprops (arrayKey (driverAddOther m9).target.identifier)
          = some (List.replicate (driverAddOther m9).target.driverCount 0))
      ∧ (idpGet (driverRemoveExec m9).idprops (arrayKey (driverRemoveExec m9).target.identifier)
          = some (List.replicate (driverRemoveExec m9).target.driverCount 0))) :=
  ⟨by simp, by decide,
    c9_array_length_matches_drivers m9 "t2" ["A", "B"] ["K"] (by simp) (by decide)⟩

/-- C10: the `__getitem__` guard condition `0 > key >= len(self)` is
unsatisfiable (it demands a negative key at least as large as a natural
length), so the guarded IndexError is unreachable: the int branch can
only fail through the underlying collection, and the caller
`DriverVariableRemove.execute` cancels exactly when the underlying
collection access fails. -/
theorem c10_getitem_guard_unsatisfiable (l : List Variable) (key : ℤ) (index : ℕ) :
    ¬ (0 > key ∧ (l.length : ℤ) ≤ key)
      ∧ variables_getitem l key ≠ .error true
      ∧ (variables_getitem l key = .error false ↔ pyGet l key = none)
      ∧ (driver_variable_remove l index = none ↔ pyGet l (index : ℤ) = none) := by
  have hguard : ¬ (0 > key ∧ (l.length : ℤ) ≤ key) := by
    rintro ⟨h1, h2⟩
    omega
  have hguard2 : ¬ (0 > (index : ℤ) ∧ (l.length : ℤ) ≤ (index : ℤ)) := by
    rintro ⟨h1, _⟩
    omega
  refine ⟨hguard, ?_, ?_, ?_⟩
  · rw [variables_getitem, if_neg hguard]
    cases hp : pyGet l key <;> simp
  · rw [variables_getitem, if_neg hguard]
    cases hp : pyGet l key <;> simp
  · rw [driver_variable_remove, variables_getitem, if_neg hguard2]
    cases hp : pyGet l (index : ℤ) <;> simp
